import Mathlib

/-!
# Repository authorization query conditions

A shallow embedding of `internal/database/repos_perm.go`:

* `GetAuthzQueryParameters` decides, from the site configuration, the configured
  authz providers, the actor of the request and the current-user lookup, whether
  repository permission checks are bypassed;
* `authzQuery` builds the SQL condition that restricts `repo` rows to the ones
  the authenticated user may read.

Everything the Go code reads from its surroundings (`authz.GetProviders`,
`globals.PermissionsUserMapping`, `conf.Get`, `conf.ExperimentalFeatures`,
`actor.FromContext`, `db.Users().GetByCurrentAuthUser`) is an explicit field of
`Env`, and the value `authzQuery` reads from `conf.ExperimentalFeatures` is its
first argument. User ids are `int32` in Go; they are never computed with, so
they are plain integers here.

`sqlf` queries are kept as the tree of `sqlf.Sprintf` calls that built them (the
library flattens nested queries into one format string and one argument list).
`sqlWords` and `Query.tables` read the SQL text of such a tree, and `denote`
gives the clauses their truth value over permission data.

The second part embeds `parseGitDiffOutput` of
`cmd/symbols/internal/gitserver/client.go`.
-/

namespace Sqlf

mutual
/-- An argument handed to `sqlf.Sprintf`: a plain value (here always an `int32`)
or a nested query. -/
inductive Arg where
  | int32 (v : Int)
  | query (q : Query)

/-- A `sqlf.Query` as built by `sqlf.Sprintf(format, args...)`: the format string
and its arguments, nested queries kept as sub-trees. -/
inductive Query where
  | mk (format : String) (args : List Arg)
end

/-- The call `sqlf.Sprintf(format, args...)`. -/
def Sprintf (format : String) (args : List Arg) : Query :=
  Query.mk format args

/-- The call `sqlf.Join(queries, sep)`: one `%s` per query, separated by
`" " + sep + " "`, with the queries as arguments. -/
def Join (queries : List Query) (sep : String) : Query :=
  Sprintf (String.intercalate (" " ++ sep ++ " ") (queries.map fun _ => "%s"))
    (queries.map Arg.query)

/-- The format string of a query. -/
def Query.format : Query → String
  | Query.mk f _ => f

/-- The arguments of a query. -/
def Query.args : Query → List Arg
  | Query.mk _ a => a

mutual
/-- Every query of the tree: the query itself, then the queries nested in its
arguments, in order. -/
def Query.nodes : Query → List Query
  | Query.mk f args => Query.mk f args :: Arg.nodesList args

/-- The queries of the trees found among a list of arguments. -/
def Arg.nodesList : List Arg → List Query
  | [] => []
  | Arg.int32 _ :: rest => Arg.nodesList rest
  | Arg.query q :: rest => Query.nodes q ++ Arg.nodesList rest
end

/-- The word read so far, if there is one. -/
def flushWord (cur : List Char) : List String :=
  if cur.isEmpty then [] else [String.mk cur.reverse]

/-- Splits SQL text into its blank-separated words, leaving out `--` comments,
which run to the end of their line. The flag tells whether the reader is inside
a comment; `cur` is the current word, reversed. -/
def sqlWordsAux : List Char → Bool → List Char → List String
  | [], _, cur => flushWord cur
  | c :: cs, true, cur =>
    if c = '\n' then sqlWordsAux cs false cur else sqlWordsAux cs true cur
  | c :: cs, false, cur =>
    if c = '-' ∧ cs.head? = some '-' then flushWord cur ++ sqlWordsAux cs true []
    else if c = ' ' ∨ c = '\n' ∨ c = '\t' then flushWord cur ++ sqlWordsAux cs false []
    else sqlWordsAux cs false (c :: cur)

/-- The words of an SQL text, comments left out. -/
def sqlWords (s : String) : List String :=
  sqlWordsAux s.data false []

/-- The table names of a list of SQL words: each word that follows `FROM` or
`JOIN`. -/
def tablesAfter : List String → List String
  | [] => []
  | w :: rest =>
    if w = "FROM" ∨ w = "JOIN" then
      match rest with
      | [] => []
      | t :: _ => t :: tablesAfter rest
    else tablesAfter rest

/-- The tables a query reads, over all the queries of its tree. -/
def Query.tables (q : Query) : List String :=
  q.nodes.flatMap fun n => tablesAfter (sqlWords n.format)

end Sqlf

namespace Database

open Sqlf

/-- A Go `error` value: the package-level `errPermissionsUserMappingConflict`, or
any other error, identified by its message. -/
inductive GoError where
  | permissionsUserMappingConflict
  | other (msg : String)
  deriving DecidableEq, Repr

/-- The package variable `errPermissionsUserMappingConflict`. -/
def errPermissionsUserMappingConflict : GoError :=
  GoError.permissionsUserMappingConflict

/-- The type `BypassAuthzReasonsMap`. -/
structure BypassAuthzReasonsMap where
  SiteAdmin : Bool := false
  IsInternal : Bool := false
  NoAuthzProvider : Bool := false
  deriving DecidableEq, Repr

/-- The type `AuthzQueryParameters`; the defaults are Go's zero values. -/
structure AuthzQueryParameters where
  BypassAuthz : Bool := false
  BypassAuthzReasons : BypassAuthzReasonsMap := {}
  UsePermissionsUserMapping : Bool := false
  AuthenticatedUserID : Int := 0
  AuthzEnforceForSiteAdmins : Bool := false
  UnifiedPermsEnabled : Bool := false
  deriving DecidableEq, Repr

/-- An authz provider as seen by this file: an opaque handle, only counted. -/
structure Provider where
  serviceID : String
  deriving DecidableEq, Repr

/-- What this file reads of the request actor: the results of `a.IsInternal()`
and `a.IsAuthenticated()`. -/
structure Actor where
  isInternal : Bool
  isAuthenticated : Bool
  deriving DecidableEq, Repr

/-- What this file reads of the user returned by `GetByCurrentAuthUser`. -/
structure User where
  ID : Int
  SiteAdmin : Bool
  deriving DecidableEq, Repr

/-- The surroundings `GetAuthzQueryParameters` reads. -/
structure Env where
  /-- First result of `authz.GetProviders()`. -/
  authzAllowByDefault : Bool
  /-- Second result of `authz.GetProviders()`. -/
  authzProviders : List Provider
  /-- Value of `globals.PermissionsUserMapping().Enabled`. -/
  permissionsUserMappingEnabled : Bool
  /-- Value of `conf.Get().AuthzEnforceForSiteAdmins`. -/
  authzEnforceForSiteAdmins : Bool
  /-- Value of `conf.ExperimentalFeatures().UnifiedPermissions`, as read by
  `GetAuthzQueryParameters`. -/
  unifiedPermissions : Bool
  /-- Result of `actor.FromContext(ctx)`. -/
  actor : Actor
  /-- The outcome of `db.Users().GetByCurrentAuthUser(ctx)`, should it be called. -/
  getByCurrentAuthUser : Except GoError User

/-- What a call of `GetAuthzQueryParameters` yields: the two Go results
`(params, err)`, `none` standing for `nil`, and the number of calls made to
`db.Users().GetByCurrentAuthUser`. -/
structure Outcome where
  params : Option AuthzQueryParameters
  err : Option GoError
  lookupCalls : Nat
  deriving DecidableEq, Repr

/-- The function `GetAuthzQueryParameters`. -/
def GetAuthzQueryParameters (env : Env) : Outcome :=
  let params : AuthzQueryParameters := {}
  let authzAllowByDefault := env.authzAllowByDefault
  let authzProviders := env.authzProviders
  let params := { params with UsePermissionsUserMapping := env.permissionsUserMappingEnabled }
  let params := { params with AuthzEnforceForSiteAdmins := env.authzEnforceForSiteAdmins }
  let params := { params with UnifiedPermsEnabled := env.unifiedPermissions }
  if params.UsePermissionsUserMapping
      && (decide (authzProviders.length > 0) && !params.UnifiedPermsEnabled) then
    { params := none, err := some errPermissionsUserMappingConflict, lookupCalls := 0 }
  else
    let authzAllowByDefault :=
      if params.UsePermissionsUserMapping then false else authzAllowByDefault
    let a := env.actor
    let params :=
      if a.isInternal then
        { params with
          BypassAuthz := true
          BypassAuthzReasons := { params.BypassAuthzReasons with IsInternal := true } }
      else params
    let params :=
      if authzAllowByDefault && decide (authzProviders.length = 0) then
        { params with
          BypassAuthz := true
          BypassAuthzReasons := { params.BypassAuthzReasons with NoAuthzProvider := true } }
      else params
    if a.isAuthenticated then
      match env.getByCurrentAuthUser with
      | Except.error err =>
        if !params.BypassAuthz then
          { params := none, err := some err, lookupCalls := 1 }
        else
          { params := some params, err := none, lookupCalls := 1 }
      | Except.ok currentUser =>
        let params := { params with AuthenticatedUserID := currentUser.ID }
        let params :=
          if currentUser.SiteAdmin && !params.AuthzEnforceForSiteAdmins then
            { params with
              BypassAuthz := true
              BypassAuthzReasons := { params.BypassAuthzReasons with SiteAdmin := true } }
          else params
        { params := some params, err := none, lookupCalls := 1 }
    else
      { params := some params, err := none, lookupCalls := 0 }

/-- The function `GetUnrestrictedReposCond`. -/
def GetUnrestrictedReposCond (unifiedPermsEnabled : Bool) : Query :=
  if unifiedPermsEnabled then
    Sprintf "\n\t\t\t-- Unrestricted repos are visible to all users\n\t\t\tEXISTS (\n\t\t\t\tSELECT\n\t\t\t\tFROM user_repo_permissions\n\t\t\t\tWHERE repo_id = repo.id AND user_id IS NULL\n\t\t\t)\n\t\t" []
  else
    Sprintf "\n\t\t-- Unrestricted repos are visible to all users\n\t\tEXISTS (\n\t\t\tSELECT\n\t\t\tFROM repo_permissions\n\t\t\tWHERE repo_id = repo.id\n\t\t\tAND unrestricted\n\t\t)\n\t" []

/-- The package variable `ExternalServiceUnrestrictedCondition`. -/
def ExternalServiceUnrestrictedCondition : Query :=
  Sprintf "\n(\n    NOT repo.private          -- Happy path of non-private repositories\n    OR  EXISTS (              -- Each external service defines if repositories are unrestricted\n        SELECT\n        FROM external_services AS es\n        JOIN external_service_repos AS esr ON (\n                esr.external_service_id = es.id\n            AND esr.repo_id = repo.id\n            AND es.unrestricted = TRUE\n            AND es.deleted_at IS NULL\n        )\n\t)\n)\n" []

/-- The local variable `restrictedRepositoriesSQL` of `authzQuery`, as it stands
after the `if !unifiedPermsEnabled` assignment. -/
def restrictedRepositoriesSQL (unifiedPermsEnabled : Bool) : String :=
  let restrictedRepositoriesSQL :=
    "\n\t-- Restricted repositories require checking permissions\n\tEXISTS (\n\t\tSELECT repo_id FROM user_repo_permissions\n\t\tWHERE\n\t\t\trepo_id = repo.id\n\t\tAND user_id = %s\n\t)\n\t"
  if !unifiedPermsEnabled then
    "\n\t-- Restricted repositories require checking permissions\n    (\n\t\tSELECT object_ids_ints @> INTSET(repo.id)\n\t\tFROM user_permissions\n\t\tWHERE\n\t\t\tuser_id = %s\n\t\tAND permission = \x27read\x27\n\t\tAND object_type = \x27repos\x27\n\t)\n\t"
  else restrictedRepositoriesSQL

/-- The local variable `restrictedRepositoriesQuery` of `authzQuery`. -/
def restrictedRepositoriesQuery (unifiedPermsEnabled : Bool) (authenticatedUserID : Int) :
    Query :=
  Sprintf (restrictedRepositoriesSQL unifiedPermsEnabled) [Arg.int32 authenticatedUserID]

/-- The function `authzQuery`. Its first argument is the value of
`conf.ExperimentalFeatures().UnifiedPermissions` at the time of the call, which
the Go function reads itself. -/
def authzQuery (confUnifiedPermissions : Bool)
    (bypassAuthz usePermissionsUserMapping : Bool) (authenticatedUserID : Int) : Query :=
  if bypassAuthz then
    Sprintf "\n(\n    -- Bypass authz\n    TRUE\n)\n" []
  else
    let unifiedPermsEnabled := confUnifiedPermissions
    let unrestrictedReposQuery := GetUnrestrictedReposCond unifiedPermsEnabled
    let conditions := [unrestrictedReposQuery]
    let conditions :=
      if unifiedPermsEnabled || !usePermissionsUserMapping then
        conditions ++ [ExternalServiceUnrestrictedCondition]
      else conditions
    let restrictedRepositoriesQuery :=
      restrictedRepositoriesQuery unifiedPermsEnabled authenticatedUserID
    let conditions := conditions ++ [restrictedRepositoriesQuery]
    Sprintf "(%s)" [Arg.query (Join conditions "\nOR\n")]

/-- The method `AuthzQueryParameters.ToAuthzQuery`; `authzQuery` reads the
unified-permissions setting again when it runs. -/
def AuthzQueryParameters.ToAuthzQuery (confUnifiedPermissions : Bool)
    (p : AuthzQueryParameters) : Query :=
  authzQuery confUnifiedPermissions p.BypassAuthz p.UsePermissionsUserMapping
    p.AuthenticatedUserID

/-- The tables of the unified permissions representation. -/
def unifiedTables : List String := ["user_repo_permissions"]

/-- The tables of the legacy permissions representation. -/
def legacyTables : List String := ["repo_permissions", "user_permissions"]

/-- The configuration in which both permissions user mapping and authz
providers are set up while legacy permissions are in use. -/
def Env.isConflict (env : Env) : Prop :=
  env.permissionsUserMappingEnabled = true ∧ 0 < env.authzProviders.length
    ∧ env.unifiedPermissions = false

instance (env : Env) : Decidable env.isConflict := by
  unfold Env.isConflict
  infer_instance

/-- Authz allows by default, no provider is configured and permissions user
mapping is off: the default-allow rule of `GetAuthzQueryParameters` applies. -/
def Env.allowsByDefault (env : Env) : Prop :=
  env.authzAllowByDefault = true ∧ env.authzProviders = []
    ∧ env.permissionsUserMappingEnabled = false

instance (env : Env) : Decidable env.allowsByDefault := by
  unfold Env.allowsByDefault
  infer_instance

/-- The actor is authenticated and the user lookup yields a site admin while
site admins are not held to the permission checks. -/
def Env.siteAdminBypasses (env : Env) : Prop :=
  env.actor.isAuthenticated = true
    ∧ ∃ u, env.getByCurrentAuthUser = Except.ok u ∧ u.SiteAdmin = true
        ∧ env.authzEnforceForSiteAdmins = false

end Database

/-! ## Example surroundings -/

namespace Database

open Sqlf

/-- User mapping on, one provider, legacy permissions: the conflict; the request
comes from an internal actor. -/
def envConflictInternal : Env :=
  { authzAllowByDefault := true, authzProviders := [⟨"https://github.com/"⟩],
    permissionsUserMappingEnabled := true, authzEnforceForSiteAdmins := false,
    unifiedPermissions := false, actor := ⟨true, false⟩,
    getByCurrentAuthUser := Except.ok ⟨1, true⟩ }

/-- No provider, allow by default, user 7 signed in and found, not a site admin. -/
def envDefaultAllow : Env :=
  { authzAllowByDefault := true, authzProviders := [],
    permissionsUserMappingEnabled := false, authzEnforceForSiteAdmins := false,
    unifiedPermissions := false, actor := ⟨false, true⟩,
    getByCurrentAuthUser := Except.ok ⟨7, false⟩ }

/-- One provider, an internal actor, legacy permissions, no user mapping. -/
def envInternal : Env :=
  { authzAllowByDefault := false, authzProviders := [⟨"https://gitlab.com/"⟩],
    permissionsUserMappingEnabled := false, authzEnforceForSiteAdmins := false,
    unifiedPermissions := false, actor := ⟨true, false⟩,
    getByCurrentAuthUser := Except.error (GoError.other "user not found") }

/-- User mapping on, no provider, allow by default reported, user 7 signed in
and found, not a site admin. -/
def envUserMapping : Env :=
  { authzAllowByDefault := true, authzProviders := [],
    permissionsUserMappingEnabled := true, authzEnforceForSiteAdmins := false,
    unifiedPermissions := false, actor := ⟨false, true⟩,
    getByCurrentAuthUser := Except.ok ⟨7, false⟩ }

/-- One provider, user 3 signed in and found, a site admin; site admins are not
held to the permission checks. -/
def envSiteAdmin : Env :=
  { authzAllowByDefault := false, authzProviders := [⟨"https://github.com/"⟩],
    permissionsUserMappingEnabled := false, authzEnforceForSiteAdmins := false,
    unifiedPermissions := false, actor := ⟨false, true⟩,
    getByCurrentAuthUser := Except.ok ⟨3, true⟩ }

/-- One provider, a signed-in actor whose lookup fails. -/
def envLookupFails : Env :=
  { authzAllowByDefault := false, authzProviders := [⟨"https://github.com/"⟩],
    permissionsUserMappingEnabled := false, authzEnforceForSiteAdmins := false,
    unifiedPermissions := false, actor := ⟨false, true⟩,
    getByCurrentAuthUser := Except.error (GoError.other "user not found") }

/-- No provider, allow by default, a signed-in actor whose lookup fails. -/
def envLookupFailsBypassed : Env :=
  { authzAllowByDefault := true, authzProviders := [],
    permissionsUserMappingEnabled := false, authzEnforceForSiteAdmins := false,
    unifiedPermissions := false, actor := ⟨false, true⟩,
    getByCurrentAuthUser := Except.error (GoError.other "user not found") }

/-- No provider, allow by default, no user mapping, and an internal actor that is
not signed in. -/
def envInternalDefaultAllow : Env :=
  { authzAllowByDefault := true, authzProviders := [],
    permissionsUserMappingEnabled := false, authzEnforceForSiteAdmins := false,
    unifiedPermissions := false, actor := ⟨true, false⟩,
    getByCurrentAuthUser := Except.error (GoError.other "user not found") }

/-- One provider, an actor that is internal and carries the user id 3; the
lookup finds user 3, not a site admin. -/
def envInternalSignedIn : Env :=
  { authzAllowByDefault := false, authzProviders := [⟨"https://github.com/"⟩],
    permissionsUserMappingEnabled := false, authzEnforceForSiteAdmins := false,
    unifiedPermissions := false, actor := ⟨true, true⟩,
    getByCurrentAuthUser := Except.ok ⟨3, false⟩ }

/-- The surroundings `env` with another outcome of the user lookup. -/
def Env.withLookup (env : Env) (lookup : Except GoError User) : Env :=
  { env with getByCurrentAuthUser := lookup }

/-! ## What the query conditions mean

The conditions built by `authzQuery` are read over permission data of both
representations, with the truth values of SQL. The reading follows the text of
the five clauses of `repos_perm.go`. -/

/-- A truth value of SQL. -/
inductive SqlValue where
  | true
  | false
  | null
  deriving DecidableEq, Repr

/-- The truth value of an `EXISTS` or of a column that is not null. -/
def SqlValue.ofBool (b : Bool) : SqlValue :=
  if b then SqlValue.true else SqlValue.false

/-- The `OR` of SQL. -/
def SqlValue.or : SqlValue → SqlValue → SqlValue
  | SqlValue.true, _ => SqlValue.true
  | _, SqlValue.true => SqlValue.true
  | SqlValue.false, SqlValue.false => SqlValue.false
  | _, _ => SqlValue.null

/-- The permission data the clauses read, in both representations. -/
structure PermsData where
  /-- The column `repo.private` of the repository with the given id. -/
  repoPrivate : Int → Bool
  /-- Whether some external service that is unrestricted and not deleted is
  joined to the repository by `external_service_repos`. -/
  onUnrestrictedExternalService : Int → Bool
  /-- The rows of `user_repo_permissions` (unified): `user_id`, which can be
  null, and `repo_id`. -/
  userRepoPermissions : List (Option Int × Int)
  /-- The rows of `repo_permissions` (legacy): `repo_id` and `unrestricted`. -/
  repoPermissions : List (Int × Bool)
  /-- The column `object_ids_ints` of the row of `user_permissions` (legacy)
  with the given `user_id`, `permission = read` and `object_type = repos`, if
  there is one. -/
  userPermissions : Int → Option (List Int)

/-- The unified unrestricted-repos clause: a row of `user_repo_permissions` for
the repository with a null `user_id` exists. -/
def PermsData.unrestrictedUnified (db : PermsData) (repo : Int) : SqlValue :=
  SqlValue.ofBool (db.userRepoPermissions.any fun row => decide (row.2 = repo ∧ row.1 = none))

/-- The legacy unrestricted-repos clause: a row of `repo_permissions` for the
repository with `unrestricted` set exists. -/
def PermsData.unrestrictedLegacy (db : PermsData) (repo : Int) : SqlValue :=
  SqlValue.ofBool (db.repoPermissions.any fun row => decide (row.1 = repo) && row.2)

/-- The clause `ExternalServiceUnrestrictedCondition`: the repository is not
private, or it is on an unrestricted external service. -/
def PermsData.externalServiceUnrestricted (db : PermsData) (repo : Int) : SqlValue :=
  (SqlValue.ofBool (!db.repoPrivate repo)).or
    (SqlValue.ofBool (db.onUnrestrictedExternalService repo))

/-- The unified restricted-membership clause: a row of `user_repo_permissions`
for the repository and the user exists. -/
def PermsData.restrictedUnified (db : PermsData) (repo user : Int) : SqlValue :=
  SqlValue.ofBool
    (db.userRepoPermissions.any fun row => decide (row.2 = repo ∧ row.1 = some user))

/-- The legacy restricted-membership clause: the scalar subquery
`object_ids_ints @> INTSET(repo.id)` over the row of the user in
`user_permissions`; null when the user has no such row. -/
def PermsData.restrictedLegacy (db : PermsData) (repo user : Int) : SqlValue :=
  match db.userPermissions user with
  | none => SqlValue.null
  | some ids => SqlValue.ofBool (decide (repo ∈ ids))

/-- The number of operands of a format `%s OR %s OR ... OR %s`. -/
def orOperands : List String → Option Nat
  | ["%s"] => some 1
  | "%s" :: "OR" :: rest => (orOperands rest).map (· + 1)
  | _ => none

mutual
/-- The truth value of a query condition for one repository, or `none` for a
query that is not made of the clauses of this file. -/
def denote (db : PermsData) (repo : Int) : Query → Option SqlValue
  | Query.mk format args =>
    let words := sqlWords format
    if words = ["(", "TRUE", ")"] then
      match args with
      | [] => some SqlValue.true
      | _ => none
    else if words = sqlWords (GetUnrestrictedReposCond true).format then
      match args with
      | [] => some (db.unrestrictedUnified repo)
      | _ => none
    else if words = sqlWords (GetUnrestrictedReposCond false).format then
      match args with
      | [] => some (db.unrestrictedLegacy repo)
      | _ => none
    else if words = sqlWords ExternalServiceUnrestrictedCondition.format then
      match args with
      | [] => some (db.externalServiceUnrestricted repo)
      | _ => none
    else if words = sqlWords (restrictedRepositoriesSQL true) then
      match args with
      | [Arg.int32 user] => some (db.restrictedUnified repo user)
      | _ => none
    else if words = sqlWords (restrictedRepositoriesSQL false) then
      match args with
      | [Arg.int32 user] => some (db.restrictedLegacy repo user)
      | _ => none
    else if words = ["(%s)"] then
      match denoteArgs db repo args with
      | some [v] => some v
      | _ => none
    else
      match orOperands words, denoteArgs db repo args with
      | some n, some vs =>
        if vs.length = n then some (vs.foldl SqlValue.or SqlValue.false) else none
      | _, _ => none

/-- The truth values of the queries that make up a list of arguments, or `none`
when one of them is not a query or has no truth value. -/
def denoteArgs (db : PermsData) (repo : Int) : List Arg → Option (List SqlValue)
  | [] => some []
  | Arg.int32 _ :: _ => none
  | Arg.query q :: rest =>
    match denote db repo q, denoteArgs db repo rest with
    | some v, some vs => some (v :: vs)
    | _, _ => none
end

/-- The condition keeps the repository: its truth value is true. -/
def keeps (db : PermsData) (repo : Int) (q : Query) : Bool :=
  decide (denote db repo q = some SqlValue.true)

/-- The two representations hold the same permissions for the repository and
the user: the repository has a row with a null user in `user_repo_permissions`
exactly when a row of `repo_permissions` flags it unrestricted, and the user has
a row for the repository in `user_repo_permissions` exactly when the integer set
of the user in `user_permissions` contains the repository id. -/
def PermsData.agree (db : PermsData) (repo user : Int) : Prop :=
  (db.unrestrictedUnified repo = db.unrestrictedLegacy repo)
    ∧ (db.restrictedUnified repo user = SqlValue.true
        ↔ ∃ ids, db.userPermissions user = some ids ∧ repo ∈ ids)

/-- Repository 1 is public and nobody holds a permission, in either
representation. -/
def publicRepoNoPermissions : PermsData :=
  { repoPrivate := fun _ => false
    onUnrestrictedExternalService := fun _ => false
    userRepoPermissions := []
    repoPermissions := []
    userPermissions := fun _ => none }

/-- Repository 1 is private; user 7 may read repositories 1 and 2, in both
representations; repository 3 is unrestricted, in both representations. -/
def privateRepoWithPermissions : PermsData :=
  { repoPrivate := fun _ => true
    onUnrestrictedExternalService := fun _ => false
    userRepoPermissions := [(some 7, 1), (some 7, 2), (none, 3)]
    repoPermissions := [(1, false), (3, true)]
    userPermissions := fun u => if u = 7 then some [1, 2] else none }

end Database

/-! # Parsing the output of `git diff`

A shallow embedding of `parseGitDiffOutput` in
`cmd/symbols/internal/gitserver/client.go`. Byte slices and Go strings are lists
of byte values. A run-time panic of the Go code is an outcome of its own. -/

namespace Gitserver

/-- The type `Changes`: added, modified and deleted paths. The defaults are Go's
zero value. -/
structure Changes where
  Added : List (List Nat) := []
  Modified : List (List Nat) := []
  Deleted : List (List Nat) := []
  deriving DecidableEq, Repr

/-- The one byte of the package variable `NUL = []byte{0}`. -/
def NUL : Nat := 0

/-- The call `bytes.TrimRight(s, cutset)` for a cutset of one-byte characters:
`s` without its trailing bytes that occur in `cutset`. -/
def bytesTrimRight (s : List Nat) (cutset : List Nat) : List Nat :=
  (s.reverse.dropWhile fun b => decide (b ∈ cutset)).reverse

/-- The call `bytes.Split(s, sep)` for a separator `sep` of one byte: the pieces
of `s` between the occurrences of the separator, which number one more than the
occurrences; an empty `s` gives one empty piece. -/
def bytesSplit : List Nat → Nat → List (List Nat)
  | [], _ => [[]]
  | b :: bs, sep =>
    if b = sep then [] :: bytesSplit bs sep
    else
      match bytesSplit bs sep with
      | [] => [[b]]
      | piece :: pieces => (b :: piece) :: pieces

/-- An index expression of `parseGitDiffOutput` that can be out of range. -/
inductive IndexRead where
  /-- The read `slices[i][0]`. -/
  | statusByte
  /-- The read `slices[i+1]`. -/
  | path
  deriving DecidableEq, Repr

/-- What a call of `parseGitDiffOutput` comes to: it returns its two results, or
it panics with an index out of range. -/
inductive ParseResult where
  | returned (changes : Changes) (err : Option String)
  | indexOutOfRange (read : IndexRead)
  deriving DecidableEq, Repr

/-- The `switch` of `parseGitDiffOutput` on the status byte `c`, for the path
`slices[i+1]`. The bytes 65, 77 and 68 are `A`, `M` and `D`. -/
def recordChange (changes : Changes) (c : Nat) (path : List Nat) : Changes :=
  if c = 65 then { changes with Added := changes.Added ++ [path] }
  else if c = 77 then { changes with Modified := changes.Modified ++ [path] }
  else if c = 68 then { changes with Deleted := changes.Deleted ++ [path] }
  else changes

/-- The `for` loop of `parseGitDiffOutput`, given `slices[i:]` and the changes
gathered so far. The read `slices[i][0]` panics on an empty `slices[i]`; the
read `slices[i+1]`, made for the status bytes `A`, `M` and `D` only, panics when
`slices[i]` is the last slice. -/
def parseLoop : List (List Nat) → Changes → ParseResult
  | [], changes => ParseResult.returned changes none
  | [] :: _, _ => ParseResult.indexOutOfRange IndexRead.statusByte
  | [c :: _], changes =>
    if c = 65 ∨ c = 77 ∨ c = 68 then ParseResult.indexOutOfRange IndexRead.path
    else ParseResult.returned changes none
  | (c :: _) :: path :: rest, changes => parseLoop rest (recordChange changes c path)

/-- The function `parseGitDiffOutput`. -/
def parseGitDiffOutput (output : List Nat) : ParseResult :=
  let changes : Changes := {}
  let slices := bytesSplit (bytesTrimRight output [NUL]) NUL
  if slices.length % 2 ≠ 0 then
    ParseResult.returned changes (some "uneven pairs")
  else
    parseLoop slices changes

/-- One record `<status> NUL <path> NUL` of the output of `git diff`. -/
structure DiffRecord where
  status : List Nat
  path : List Nat
  deriving DecidableEq, Repr

/-- The bytes of a record: `<status> NUL <path> NUL`. -/
def DiffRecord.encode (r : DiffRecord) : List Nat :=
  r.status ++ [NUL] ++ r.path ++ [NUL]

/-- The bytes of a sequence of records, one after the other. -/
def encodeRecords (rs : List DiffRecord) : List Nat :=
  rs.flatMap DiffRecord.encode

/-- The paths, in order, of the records whose status begins with the byte `c`. -/
def pathsWithStatus (c : Nat) (rs : List DiffRecord) : List (List Nat) :=
  (rs.filter fun r => decide (r.status.head? = some c)).map DiffRecord.path

end Gitserver

namespace Database

/-! ## The result of `GetAuthzQueryParameters` in closed form -/

/-- The result of `GetAuthzQueryParameters` written out: the conflict error, or
else the parameters `pre` as they stand at the `a.IsAuthenticated()` test,
followed by what the lookup makes of them. -/
theorem GetAuthzQueryParameters_eq (env : Env) :
    GetAuthzQueryParameters env =
      if env.permissionsUserMappingEnabled
          && (decide (env.authzProviders.length > 0) && !env.unifiedPermissions) then
        { params := none, err := some errPermissionsUserMappingConflict, lookupCalls := 0 }
      else
        let noProvider :=
          !env.permissionsUserMappingEnabled && env.authzAllowByDefault
            && decide (env.authzProviders.length = 0)
        let pre : AuthzQueryParameters :=
          { BypassAuthz := env.actor.isInternal || noProvider
            BypassAuthzReasons :=
              { SiteAdmin := false, IsInternal := env.actor.isInternal,
                NoAuthzProvider := noProvider }
            UsePermissionsUserMapping := env.permissionsUserMappingEnabled
            AuthenticatedUserID := 0
            AuthzEnforceForSiteAdmins := env.authzEnforceForSiteAdmins
            UnifiedPermsEnabled := env.unifiedPermissions }
        if env.actor.isAuthenticated then
          match env.getByCurrentAuthUser with
          | Except.error e =>
            if pre.BypassAuthz then { params := some pre, err := none, lookupCalls := 1 }
            else { params := none, err := some e, lookupCalls := 1 }
          | Except.ok u =>
            let admin := u.SiteAdmin && !env.authzEnforceForSiteAdmins
            { params := some
                { pre with
                  BypassAuthz := pre.BypassAuthz || admin
                  BypassAuthzReasons := { pre.BypassAuthzReasons with SiteAdmin := admin }
                  AuthenticatedUserID := u.ID }
              err := none, lookupCalls := 1 }
        else { params := some pre, err := none, lookupCalls := 0 } := by
  rcases env with ⟨abd, provs, um, enf, uni, ⟨int, auth⟩, lk⟩
  rcases lk with e | ⟨uid, adm⟩
  · rcases provs with _ | ⟨pr, ps⟩ <;>
      cases abd <;> cases um <;> cases enf <;> cases uni <;> cases int <;> cases auth <;> rfl
  · rcases provs with _ | ⟨pr, ps⟩ <;>
      cases abd <;> cases um <;> cases enf <;> cases uni <;> cases int <;> cases auth <;>
      cases adm <;> rfl

/-- The user lookup is called exactly when the configuration is not the conflict
and the actor is authenticated, and then once. -/
theorem lookupCalls_eq (env : Env) :
    (GetAuthzQueryParameters env).lookupCalls
      = if ¬ env.isConflict ∧ env.actor.isAuthenticated = true then 1 else 0 := by
  rw [GetAuthzQueryParameters_eq]
  rcases env with ⟨abd, provs, um, enf, uni, ⟨int, auth⟩, lk⟩
  simp only [Env.isConflict]
  rcases lk with e | u <;> rcases provs with _ | ⟨pr, ps⟩ <;> cases abd <;> cases um <;>
    cases uni <;> cases int <;> cases auth <;> simp

/-! ## Bypass decision -/

/-- C1: in the conflicting configuration (permissions user mapping enabled, at
least one authz provider, unified permissions disabled)
`GetAuthzQueryParameters` returns `errPermissionsUserMappingConflict` and nil
parameters, whatever the actor and whatever the user lookup would yield; the
lookup is not even called. -/
theorem conflict_returns_error (env : Env) (h : env.isConflict) :
    GetAuthzQueryParameters env =
      { params := none, err := some errPermissionsUserMappingConflict, lookupCalls := 0 } := by
  obtain ⟨hmap, hprov, huni⟩ := h
  rw [GetAuthzQueryParameters_eq]
  simp [hmap, hprov, huni]

/-- Witness of C1: an internal actor in a conflicting configuration gets the
conflict error. -/
theorem conflict_returns_error_witness :
    envConflictInternal.isConflict ∧
      GetAuthzQueryParameters envConflictInternal =
        { params := none, err := some errPermissionsUserMappingConflict, lookupCalls := 0 } :=
  ⟨by decide, conflict_returns_error envConflictInternal (by decide)⟩

/-- C2: when `GetAuthzQueryParameters` returns parameters and no error,
`BypassAuthz` is true exactly when the actor is internal, or the default-allow
rule applies (allow by default, no provider, user mapping off), or the actor is
authenticated and the lookup yields a site admin while
`AuthzEnforceForSiteAdmins` is false. -/
theorem bypassAuthz_iff (env : Env) (p : AuthzQueryParameters)
    (hp : (GetAuthzQueryParameters env).params = some p)
    (herr : (GetAuthzQueryParameters env).err = none) :
    p.BypassAuthz = true ↔
      (env.actor.isInternal = true ∨ env.allowsByDefault ∨ env.siteAdminBypasses) := by
  rw [GetAuthzQueryParameters_eq] at hp herr
  rcases env with ⟨abd, provs, um, enf, uni, ⟨int, auth⟩, lk⟩
  simp only [Env.allowsByDefault, Env.siteAdminBypasses]
  rcases lk with e | ⟨uid, adm⟩
  · rcases provs with _ | ⟨pr, ps⟩ <;>
      cases abd <;> cases um <;> cases uni <;> cases int <;> cases auth <;>
      simp at hp herr ⊢ <;> subst hp <;> simp
  · rcases provs with _ | ⟨pr, ps⟩ <;>
      cases abd <;> cases um <;> cases uni <;> cases int <;> cases auth <;>
      simp at hp herr ⊢ <;> subst hp <;> cases adm <;> cases enf <;> simp

/-- Witness of C2: with no provider and allow by default, a signed-in user who is
not a site admin bypasses the checks by the default-allow rule. -/
theorem bypassAuthz_iff_witness :
    (GetAuthzQueryParameters envDefaultAllow).params
        = some { BypassAuthz := true, BypassAuthzReasons := { NoAuthzProvider := true },
                 AuthenticatedUserID := 7 }
      ∧ (GetAuthzQueryParameters envDefaultAllow).err = none
      ∧ (true = true ↔
          (envDefaultAllow.actor.isInternal = true ∨ envDefaultAllow.allowsByDefault
            ∨ envDefaultAllow.siteAdminBypasses)) :=
  ⟨by decide, by decide,
    bypassAuthz_iff envDefaultAllow
      { BypassAuthz := true, BypassAuthzReasons := { NoAuthzProvider := true },
        AuthenticatedUserID := 7 }
      (by decide) (by decide)⟩

end Database

namespace Database

open Sqlf

/-! ## The query condition -/

set_option maxRecDepth 100000

/-- C3: with `bypassAuthz = true`, `authzQuery` returns exactly the grouped
literal `TRUE`, whatever the user mapping setting, the user id and the unified
permissions setting: a query without arguments whose SQL words are `( TRUE )`,
which reads no table, and none of whose queries is an unrestricted-repos,
external-service or restricted-membership clause. -/
theorem authzQuery_bypass (confUnifiedPermissions usePermissionsUserMapping : Bool)
    (authenticatedUserID : Int) :
    authzQuery confUnifiedPermissions true usePermissionsUserMapping authenticatedUserID
        = Sprintf "\n(\n    -- Bypass authz\n    TRUE\n)\n" []
      ∧ sqlWords
          (authzQuery confUnifiedPermissions true usePermissionsUserMapping
            authenticatedUserID).format = ["(", "TRUE", ")"]
      ∧ (authzQuery confUnifiedPermissions true usePermissionsUserMapping
            authenticatedUserID).tables = []
      ∧ ∀ c ∈ (authzQuery confUnifiedPermissions true usePermissionsUserMapping
            authenticatedUserID).nodes,
          (∀ b, c ≠ GetUnrestrictedReposCond b) ∧ c ≠ ExternalServiceUnrestrictedCondition
            ∧ ∀ b u, c ≠ restrictedRepositoriesQuery b u := by
  have hq : authzQuery confUnifiedPermissions true usePermissionsUserMapping
      authenticatedUserID = Sprintf "\n(\n    -- Bypass authz\n    TRUE\n)\n" [] := rfl
  rw [hq]
  refine ⟨rfl, by decide, by decide, ?_⟩
  intro c hc
  have hc' : c = Sprintf "\n(\n    -- Bypass authz\n    TRUE\n)\n" [] := by
    simpa [Query.nodes, Arg.nodesList, Sprintf] using hc
  subst hc'
  refine ⟨?_, ?_, ?_⟩
  · intro b h
    have := congrArg Query.format h
    cases b <;> revert this <;> decide
  · intro h
    have := congrArg Query.format h
    revert this
    decide
  · intro b u h
    have := congrArg Query.args h
    simp [Sprintf, restrictedRepositoriesQuery, Query.args] at this

/-- C4: with `bypassAuthz = false`, `authzQuery` returns one parenthesised join
with `OR` of: the unrestricted-repos clause, then
`ExternalServiceUnrestrictedCondition` exactly when unified permissions are on
or user mapping is off, then the restricted-membership clause, whose only
argument is the given user id. That makes two clauses under legacy permissions
with user mapping, three otherwise. -/
theorem authzQuery_clauses (confUnifiedPermissions usePermissionsUserMapping : Bool)
    (authenticatedUserID : Int) :
    authzQuery confUnifiedPermissions false usePermissionsUserMapping authenticatedUserID
        = Sprintf "(%s)"
            [Arg.query
              (Join
                ([GetUnrestrictedReposCond confUnifiedPermissions]
                  ++ (if confUnifiedPermissions = true ∨ usePermissionsUserMapping = false
                        then [ExternalServiceUnrestrictedCondition] else [])
                  ++ [restrictedRepositoriesQuery confUnifiedPermissions authenticatedUserID])
                "\nOR\n")]
      ∧ (restrictedRepositoriesQuery confUnifiedPermissions authenticatedUserID).args
          = [Arg.int32 authenticatedUserID]
      ∧ ([GetUnrestrictedReposCond confUnifiedPermissions]
            ++ (if confUnifiedPermissions = true ∨ usePermissionsUserMapping = false
                  then [ExternalServiceUnrestrictedCondition] else [])
            ++ [restrictedRepositoriesQuery confUnifiedPermissions
                  authenticatedUserID]).length
          = (if confUnifiedPermissions = false ∧ usePermissionsUserMapping = true
              then 2 else 3)
      ∧ ∃ orClauses,
          (authzQuery confUnifiedPermissions false usePermissionsUserMapping
              authenticatedUserID).args = [Arg.query orClauses]
            ∧ orClauses.format =
                (if confUnifiedPermissions = false ∧ usePermissionsUserMapping = true
                  then "%s \nOR\n %s" else "%s \nOR\n %s \nOR\n %s") := by
  cases confUnifiedPermissions <;> cases usePermissionsUserMapping <;>
    exact ⟨rfl, rfl, rfl, _, rfl, rfl⟩

/-- C5: the leaves of a predicate returned by `authzQuery` with
`bypassAuthz = false` belong to one representation. With unified permissions on,
the unrestricted-repos clause and the restricted-membership clause are both
`EXISTS` checks on `user_repo_permissions` and the predicate reads no legacy
table; with unified permissions off, they are the `unrestricted` flag of
`repo_permissions` and the `object_ids_ints @> INTSET(repo.id)` containment on
`user_permissions`, and the predicate reads no unified table. No predicate reads
a unified table together with a legacy one. -/
theorem authzQuery_single_representation
    (confUnifiedPermissions usePermissionsUserMapping : Bool) (authenticatedUserID : Int) :
    (confUnifiedPermissions = true →
        sqlWords (GetUnrestrictedReposCond confUnifiedPermissions).format
            = ["EXISTS", "(", "SELECT", "FROM", "user_repo_permissions", "WHERE",
                "repo_id", "=", "repo.id", "AND", "user_id", "IS", "NULL", ")"]
          ∧ sqlWords
              (restrictedRepositoriesQuery confUnifiedPermissions authenticatedUserID).format
            = ["EXISTS", "(", "SELECT", "repo_id", "FROM", "user_repo_permissions", "WHERE",
                "repo_id", "=", "repo.id", "AND", "user_id", "=", "%s", ")"]
          ∧ ∀ t ∈ (authzQuery confUnifiedPermissions false usePermissionsUserMapping
                authenticatedUserID).tables, t ∉ legacyTables)
      ∧ (confUnifiedPermissions = false →
        sqlWords (GetUnrestrictedReposCond confUnifiedPermissions).format
            = ["EXISTS", "(", "SELECT", "FROM", "repo_permissions", "WHERE",
                "repo_id", "=", "repo.id", "AND", "unrestricted", ")"]
          ∧ sqlWords
              (restrictedRepositoriesQuery confUnifiedPermissions authenticatedUserID).format
            = ["(", "SELECT", "object_ids_ints", "@>", "INTSET(repo.id)", "FROM",
                "user_permissions", "WHERE", "user_id", "=", "%s", "AND", "permission", "=",
                "\x27read\x27", "AND", "object_type", "=", "\x27repos\x27", ")"]
          ∧ ∀ t ∈ (authzQuery confUnifiedPermissions false usePermissionsUserMapping
                authenticatedUserID).tables, t ∉ unifiedTables)
      ∧ ¬ ((∃ t ∈ (authzQuery confUnifiedPermissions false usePermissionsUserMapping
                authenticatedUserID).tables, t ∈ unifiedTables)
            ∧ ∃ t ∈ (authzQuery confUnifiedPermissions false usePermissionsUserMapping
                authenticatedUserID).tables, t ∈ legacyTables) := by
  cases confUnifiedPermissions <;> cases usePermissionsUserMapping
  · have ht : (authzQuery false false false authenticatedUserID).tables
        = ["repo_permissions", "external_services", "external_service_repos",
            "user_permissions"] := rfl
    rw [ht]
    exact ⟨by simp, fun _ => ⟨rfl, rfl, by decide⟩, by decide⟩
  · have ht : (authzQuery false false true authenticatedUserID).tables
        = ["repo_permissions", "user_permissions"] := rfl
    rw [ht]
    exact ⟨by simp, fun _ => ⟨rfl, rfl, by decide⟩, by decide⟩
  · have ht : (authzQuery true false false authenticatedUserID).tables
        = ["user_repo_permissions", "external_services", "external_service_repos",
            "user_repo_permissions"] := rfl
    rw [ht]
    exact ⟨fun _ => ⟨rfl, rfl, by decide⟩, by simp, by decide⟩
  · have ht : (authzQuery true false true authenticatedUserID).tables
        = ["user_repo_permissions", "external_services", "external_service_repos",
            "user_repo_permissions"] := rfl
    rw [ht]
    exact ⟨fun _ => ⟨rfl, rfl, by decide⟩, by simp, by decide⟩

/-- Witness of C5: under legacy permissions without user mapping the predicate
for user 7 reads `repo_permissions`, the external-service tables and
`user_permissions`, and no unified table. -/
theorem authzQuery_single_representation_witness :
    (authzQuery false false false 7).tables
        = ["repo_permissions", "external_services", "external_service_repos",
            "user_permissions"]
      ∧ ∀ t ∈ (authzQuery false false false 7).tables, t ∉ unifiedTables :=
  ⟨by decide, ((authzQuery_single_representation false false 7).2.1 rfl).2.2⟩

end Database

namespace Database

/-! ## Bypass rules one by one -/

/-- C6: outside the conflicting configuration, an internal actor gets parameters
with `BypassAuthz = true` and the `IsInternal` reason, and a nil error. -/
theorem internal_actor_bypasses (env : Env) (hconf : ¬ env.isConflict)
    (hint : env.actor.isInternal = true) :
    (GetAuthzQueryParameters env).err = none
      ∧ ∃ p, (GetAuthzQueryParameters env).params = some p
          ∧ p.BypassAuthz = true ∧ p.BypassAuthzReasons.IsInternal = true := by
  rw [GetAuthzQueryParameters_eq]
  rcases env with ⟨abd, provs, um, enf, uni, ⟨int, auth⟩, lk⟩
  simp only [Env.isConflict] at hconf
  simp only at hint
  subst hint
  have hc : (um && (decide (provs.length > 0) && !uni)) = false := by
    cases um <;> cases uni <;> simp_all
  rcases lk with e | u <;> cases auth <;> simp [hc]

/-- Witness of C6: an internal actor, one provider configured, lookup bound to
fail were it called. -/
theorem internal_actor_bypasses_witness :
    ¬ envInternal.isConflict ∧ envInternal.actor.isInternal = true
      ∧ (GetAuthzQueryParameters envInternal).err = none
      ∧ ∃ p, (GetAuthzQueryParameters envInternal).params = some p
          ∧ p.BypassAuthz = true ∧ p.BypassAuthzReasons.IsInternal = true :=
  ⟨by decide, rfl, internal_actor_bypasses envInternal (by decide) rfl⟩

/-- C7: with permissions user mapping enabled, any parameters returned by
`GetAuthzQueryParameters` have the `NoAuthzProvider` reason false, whatever
allow-by-default value is reported; and with no provider configured, an actor
that is not internal and not a bypassing site admin gets `BypassAuthz = false`. -/
theorem userMapping_forces_no_default_allow (env : Env) (p : AuthzQueryParameters)
    (hmap : env.permissionsUserMappingEnabled = true)
    (hp : (GetAuthzQueryParameters env).params = some p) :
    p.BypassAuthzReasons.NoAuthzProvider = false
      ∧ (env.authzProviders = [] → env.actor.isInternal = false →
          ¬ env.siteAdminBypasses → p.BypassAuthz = false) := by
  rw [GetAuthzQueryParameters_eq] at hp
  rcases env with ⟨abd, provs, um, enf, uni, ⟨int, auth⟩, lk⟩
  simp only [Env.siteAdminBypasses]
  simp only at hmap
  subst hmap
  rcases lk with e | ⟨uid, adm⟩
  · rcases provs with _ | ⟨pr, ps⟩ <;> cases uni <;> cases auth <;> cases int <;>
      simp at hp ⊢ <;> subst hp <;> simp
  · rcases provs with _ | ⟨pr, ps⟩ <;> cases uni <;> cases auth <;> cases int <;>
      simp at hp ⊢ <;> subst hp <;> cases adm <;> cases enf <;> simp

/-- Witness of C7: allow by default is reported, no provider, user mapping on;
user 7, not a site admin, does not bypass and no `NoAuthzProvider` is recorded. -/
theorem userMapping_forces_no_default_allow_witness :
    envUserMapping.authzAllowByDefault = true
      ∧ envUserMapping.permissionsUserMappingEnabled = true
      ∧ (GetAuthzQueryParameters envUserMapping).params
          = some { UsePermissionsUserMapping := true, AuthenticatedUserID := 7 }
      ∧ (false = false
          ∧ (envUserMapping.authzProviders = [] → envUserMapping.actor.isInternal = false →
              ¬ envUserMapping.siteAdminBypasses → false = false)) :=
  ⟨rfl, rfl, by decide,
    userMapping_forces_no_default_allow envUserMapping
      { UsePermissionsUserMapping := true, AuthenticatedUserID := 7 } rfl (by decide)⟩

/-- C8: outside the conflicting configuration and with
`AuthzEnforceForSiteAdmins = false`, an authenticated actor whose lookup yields a
site admin gets `BypassAuthz = true` with the `SiteAdmin` reason, whatever the
providers and the allow-by-default value; with `AuthzEnforceForSiteAdmins = true`
the `SiteAdmin` reason is false in any parameters returned. -/
theorem siteAdmin_bypass (env : Env) :
    (¬ env.isConflict → env.authzEnforceForSiteAdmins = false →
        env.actor.isAuthenticated = true →
        ∀ u, env.getByCurrentAuthUser = Except.ok u → u.SiteAdmin = true →
          (GetAuthzQueryParameters env).err = none
            ∧ ∃ p, (GetAuthzQueryParameters env).params = some p
                ∧ p.BypassAuthz = true ∧ p.BypassAuthzReasons.SiteAdmin = true)
      ∧ (env.authzEnforceForSiteAdmins = true →
          ∀ p, (GetAuthzQueryParameters env).params = some p →
            p.BypassAuthzReasons.SiteAdmin = false) := by
  rw [GetAuthzQueryParameters_eq]
  rcases env with ⟨abd, provs, um, enf, uni, ⟨int, auth⟩, lk⟩
  simp only [Env.isConflict]
  constructor
  · intro hconf henf hauth u hu hadm
    subst henf hauth hu
    have hc : (um && (decide (provs.length > 0) && !uni)) = false := by
      cases um <;> cases uni <;> simp_all
    simp [hc, hadm]
  · intro henf p hp
    subst henf
    rcases lk with e | ⟨uid, adm⟩ <;> rcases provs with _ | ⟨pr, ps⟩ <;>
      cases abd <;> cases um <;> cases uni <;> cases auth <;> cases int <;>
      simp at hp <;> subst hp <;> simp

/-- Witness of C8: user 3, a site admin, with one provider configured. -/
theorem siteAdmin_bypass_witness :
    ¬ envSiteAdmin.isConflict ∧ envSiteAdmin.authzEnforceForSiteAdmins = false
      ∧ envSiteAdmin.actor.isAuthenticated = true
      ∧ envSiteAdmin.getByCurrentAuthUser = Except.ok ⟨3, true⟩
      ∧ (GetAuthzQueryParameters envSiteAdmin).err = none
      ∧ ∃ p, (GetAuthzQueryParameters envSiteAdmin).params = some p
          ∧ p.BypassAuthz = true ∧ p.BypassAuthzReasons.SiteAdmin = true :=
  ⟨by decide, rfl, rfl, rfl,
    (siteAdmin_bypass envSiteAdmin).1 (by decide) rfl rfl ⟨3, true⟩ rfl rfl⟩

end Database

namespace Database

/-! ## A failing user lookup -/

/-- C9: the actor is authenticated and the user lookup fails, that is,
`GetByCurrentAuthUser` is called and returns the error `e`, while neither the
internal-actor rule nor the default-allow rule has set `BypassAuthz`. Then
`GetAuthzQueryParameters` returns nil parameters and exactly `e`. -/
theorem lookup_error_propagates (env : Env) (e : GoError)
    (hauth : env.actor.isAuthenticated = true)
    (hcall : (GetAuthzQueryParameters env).lookupCalls = 1)
    (hfail : env.getByCurrentAuthUser = Except.error e)
    (hint : env.actor.isInternal = false)
    (hdef : ¬ env.allowsByDefault) :
    (GetAuthzQueryParameters env).params = none
      ∧ (GetAuthzQueryParameters env).err = some e := by
  rw [GetAuthzQueryParameters_eq] at hcall ⊢
  rcases env with ⟨abd, provs, um, enf, uni, ⟨int, auth⟩, lk⟩
  simp only [Env.allowsByDefault] at hdef
  simp only at hauth hfail hint
  subst hauth hfail hint
  rcases provs with _ | ⟨pr, ps⟩ <;> cases abd <;> cases um <;> cases uni <;>
    simp at hcall hdef ⊢

/-- Witness of C9: one provider, a signed-in actor, the lookup fails with
"user not found". -/
theorem lookup_error_propagates_witness :
    envLookupFails.actor.isAuthenticated = true
      ∧ (GetAuthzQueryParameters envLookupFails).lookupCalls = 1
      ∧ envLookupFails.getByCurrentAuthUser = Except.error (GoError.other "user not found")
      ∧ envLookupFails.actor.isInternal = false
      ∧ ¬ envLookupFails.allowsByDefault
      ∧ (GetAuthzQueryParameters envLookupFails).params = none
      ∧ (GetAuthzQueryParameters envLookupFails).err
          = some (GoError.other "user not found") :=
  ⟨rfl, by decide, rfl, rfl, by decide,
    lookup_error_propagates envLookupFails (GoError.other "user not found") rfl (by decide)
      rfl rfl (by decide)⟩

/-- C10: the actor is authenticated and the user lookup fails, that is,
`GetByCurrentAuthUser` is called and returns an error, after `BypassAuthz` was
set by the internal-actor rule or the default-allow rule. Then the error is
dropped: the error returned is nil and the parameters are the ones computed
before the lookup, with `BypassAuthz = true`, the `SiteAdmin` reason false, the
`IsInternal` and `NoAuthzProvider` reasons as the two rules set them, and
`AuthenticatedUserID = 0`. -/
theorem lookup_error_discarded (env : Env) (e : GoError)
    (hauth : env.actor.isAuthenticated = true)
    (hcall : (GetAuthzQueryParameters env).lookupCalls = 1)
    (hfail : env.getByCurrentAuthUser = Except.error e)
    (hbypass : env.actor.isInternal = true ∨ env.allowsByDefault) :
    (GetAuthzQueryParameters env).err = none
      ∧ (GetAuthzQueryParameters env).params =
          some
            { BypassAuthz := true
              BypassAuthzReasons :=
                { SiteAdmin := false
                  IsInternal := env.actor.isInternal
                  NoAuthzProvider := decide env.allowsByDefault }
              UsePermissionsUserMapping := env.permissionsUserMappingEnabled
              AuthenticatedUserID := 0
              AuthzEnforceForSiteAdmins := env.authzEnforceForSiteAdmins
              UnifiedPermsEnabled := env.unifiedPermissions } := by
  rw [GetAuthzQueryParameters_eq] at hcall ⊢
  rcases env with ⟨abd, provs, um, enf, uni, ⟨int, auth⟩, lk⟩
  simp only [Env.allowsByDefault] at hbypass ⊢
  simp only at hauth hfail
  subst hauth hfail
  rcases provs with _ | ⟨pr, ps⟩ <;> cases abd <;> cases um <;> cases uni <;> cases int <;>
    simp at hcall hbypass ⊢

/-- Witness of C10: no provider and allow by default, a signed-in actor, the
lookup fails with "user not found"; the parameters come back with the
`NoAuthzProvider` reason and no error. -/
theorem lookup_error_discarded_witness :
    envLookupFailsBypassed.actor.isAuthenticated = true
      ∧ (GetAuthzQueryParameters envLookupFailsBypassed).lookupCalls = 1
      ∧ envLookupFailsBypassed.getByCurrentAuthUser
          = Except.error (GoError.other "user not found")
      ∧ envLookupFailsBypassed.allowsByDefault
      ∧ (GetAuthzQueryParameters envLookupFailsBypassed).err = none
      ∧ (GetAuthzQueryParameters envLookupFailsBypassed).params =
          some
            { BypassAuthz := true
              BypassAuthzReasons :=
                { SiteAdmin := false
                  IsInternal := envLookupFailsBypassed.actor.isInternal
                  NoAuthzProvider := decide envLookupFailsBypassed.allowsByDefault }
              UsePermissionsUserMapping := envLookupFailsBypassed.permissionsUserMappingEnabled
              AuthenticatedUserID := 0
              AuthzEnforceForSiteAdmins := envLookupFailsBypassed.authzEnforceForSiteAdmins
              UnifiedPermsEnabled := envLookupFailsBypassed.unifiedPermissions } :=
  ⟨rfl, by decide, rfl, by decide,
    lookup_error_discarded envLookupFailsBypassed (GoError.other "user not found") rfl
      (by decide) rfl (Or.inr (by decide))⟩

end Database

namespace Database

open Sqlf

/-! ## Errors and reasons -/

/-- C11: outside the conflicting configuration, when the actor is not
authenticated or the user lookup succeeds, `GetAuthzQueryParameters` returns
parameters and a nil error. An error is returned on exactly two kinds of input:
the conflict, and an authenticated actor whose lookup fails while neither the
internal-actor rule nor the default-allow rule has set `BypassAuthz`. -/
theorem error_only_on_conflict_or_failed_lookup (env : Env) :
    (¬ env.isConflict →
        (env.actor.isAuthenticated = false ∨ ∃ u, env.getByCurrentAuthUser = Except.ok u) →
        (GetAuthzQueryParameters env).err = none
          ∧ ∃ p, (GetAuthzQueryParameters env).params = some p)
      ∧ ((GetAuthzQueryParameters env).err ≠ none ↔
          (env.isConflict
            ∨ (env.actor.isAuthenticated = true
                ∧ (∃ e, env.getByCurrentAuthUser = Except.error e)
                ∧ env.actor.isInternal = false ∧ ¬ env.allowsByDefault))) := by
  rw [GetAuthzQueryParameters_eq]
  rcases env with ⟨abd, provs, um, enf, uni, ⟨int, auth⟩, lk⟩
  simp only [Env.isConflict, Env.allowsByDefault]
  rcases lk with e | u <;> rcases provs with _ | ⟨pr, ps⟩ <;> cases abd <;> cases um <;>
    cases uni <;> cases int <;> cases auth <;> simp

/-- Witness of C11: one provider, user 3 signed in and found: parameters and no
error. -/
theorem error_only_on_conflict_or_failed_lookup_witness :
    ¬ envSiteAdmin.isConflict
      ∧ (envSiteAdmin.actor.isAuthenticated = false
          ∨ ∃ u, envSiteAdmin.getByCurrentAuthUser = Except.ok u)
      ∧ (GetAuthzQueryParameters envSiteAdmin).err = none
      ∧ ∃ p, (GetAuthzQueryParameters envSiteAdmin).params = some p :=
  ⟨by decide, Or.inr ⟨⟨3, true⟩, rfl⟩,
    (error_only_on_conflict_or_failed_lookup envSiteAdmin).1 (by decide)
      (Or.inr ⟨⟨3, true⟩, rfl⟩)⟩

/-- C12: in any parameters returned by `GetAuthzQueryParameters`, `BypassAuthz`
is the disjunction of the three recorded reasons. -/
theorem bypassAuthz_eq_or_reasons (env : Env) (p : AuthzQueryParameters)
    (hp : (GetAuthzQueryParameters env).params = some p) :
    p.BypassAuthz =
      (p.BypassAuthzReasons.SiteAdmin || p.BypassAuthzReasons.IsInternal
        || p.BypassAuthzReasons.NoAuthzProvider) := by
  rw [GetAuthzQueryParameters_eq] at hp
  rcases env with ⟨abd, provs, um, enf, uni, ⟨int, auth⟩, lk⟩
  rcases lk with e | ⟨uid, adm⟩
  · rcases provs with _ | ⟨pr, ps⟩ <;> cases abd <;> cases um <;> cases uni <;>
      cases int <;> cases auth <;> simp at hp <;> subst hp <;> rfl
  · rcases provs with _ | ⟨pr, ps⟩ <;> cases abd <;> cases um <;> cases uni <;>
      cases int <;> cases auth <;> simp at hp <;> subst hp <;> cases adm <;> cases enf <;> rfl

/-- Witness of C12: a site admin with one provider configured bypasses with the
`SiteAdmin` reason alone. -/
theorem bypassAuthz_eq_or_reasons_witness :
    (GetAuthzQueryParameters envSiteAdmin).params
        = some { BypassAuthz := true, BypassAuthzReasons := { SiteAdmin := true },
                 AuthenticatedUserID := 3 }
      ∧ true = (true || false || false) :=
  ⟨by decide,
    bypassAuthz_eq_or_reasons envSiteAdmin
      { BypassAuthz := true, BypassAuthzReasons := { SiteAdmin := true },
        AuthenticatedUserID := 3 } (by decide)⟩

end Database

namespace Database

open Sqlf

/-! ## From the decision to the query -/

set_option maxRecDepth 100000

/-- C13: no authz provider, permissions user mapping enabled, unified
permissions disabled, any allow-by-default value; the actor is authenticated and
not internal and the lookup finds a user `u` who is not a site admin. Then
`GetAuthzQueryParameters` returns, without error, parameters with
`BypassAuthz = false`, no reason recorded and `AuthenticatedUserID = u.ID`, and
`ToAuthzQuery` on them is the parenthesised `OR` of exactly two clauses: the
unrestricted-repos clause and the restricted-membership clause for `u.ID`. The
query does not read the external-service tables. -/
theorem userMapping_end_to_end (env : Env) (u : User)
    (hprov : env.authzProviders = [])
    (hmap : env.permissionsUserMappingEnabled = true)
    (huni : env.unifiedPermissions = false)
    (hauth : env.actor.isAuthenticated = true)
    (hint : env.actor.isInternal = false)
    (hlk : env.getByCurrentAuthUser = Except.ok u)
    (hadm : u.SiteAdmin = false) :
    ∃ p, (GetAuthzQueryParameters env).params = some p
      ∧ (GetAuthzQueryParameters env).err = none
      ∧ p.BypassAuthz = false
      ∧ p.BypassAuthzReasons
          = { SiteAdmin := false, IsInternal := false, NoAuthzProvider := false }
      ∧ p.AuthenticatedUserID = u.ID
      ∧ p.ToAuthzQuery env.unifiedPermissions
          = Sprintf "(%s)"
              [Arg.query
                (Join [GetUnrestrictedReposCond false, restrictedRepositoriesQuery false u.ID]
                  "\nOR\n")]
      ∧ (p.ToAuthzQuery env.unifiedPermissions).tables
          = ["repo_permissions", "user_permissions"] := by
  rw [GetAuthzQueryParameters_eq]
  rcases env with ⟨abd, provs, um, enf, uni, ⟨int, auth⟩, lk⟩
  rcases u with ⟨uid, adm⟩
  simp only at hprov hmap huni hauth hint hlk hadm
  subst hprov hmap huni hauth hint hlk hadm
  cases abd <;> cases enf <;> exact ⟨_, rfl, rfl, rfl, rfl, rfl, rfl, rfl⟩

/-- Witness of C13: allow by default reported, no provider, user mapping on,
user 7 found and not a site admin. -/
theorem userMapping_end_to_end_witness :
    envUserMapping.authzAllowByDefault = true
      ∧ ∃ p, (GetAuthzQueryParameters envUserMapping).params = some p
        ∧ (GetAuthzQueryParameters envUserMapping).err = none
        ∧ p.BypassAuthz = false
        ∧ p.BypassAuthzReasons
            = { SiteAdmin := false, IsInternal := false, NoAuthzProvider := false }
        ∧ p.AuthenticatedUserID = 7
        ∧ p.ToAuthzQuery envUserMapping.unifiedPermissions
            = Sprintf "(%s)"
                [Arg.query
                  (Join [GetUnrestrictedReposCond false, restrictedRepositoriesQuery false 7]
                    "\nOR\n")]
        ∧ (p.ToAuthzQuery envUserMapping.unifiedPermissions).tables
            = ["repo_permissions", "user_permissions"] :=
  ⟨rfl, userMapping_end_to_end envUserMapping ⟨7, false⟩ rfl rfl rfl rfl rfl rfl rfl⟩

end Database

namespace Database

open Sqlf

/-! ## The two representations compared -/

set_option maxRecDepth 100000

/-- The truth value of the condition built under unified permissions. -/
theorem denote_authzQuery_unified (db : PermsData) (repo : Int) (um : Bool) (user : Int) :
    denote db repo (authzQuery true false um user)
      = some (((SqlValue.false.or (db.unrestrictedUnified repo)).or
          (db.externalServiceUnrestricted repo)).or (db.restrictedUnified repo user)) := by
  cases um <;> rfl

/-- The truth value of the condition built under legacy permissions without
user mapping. -/
theorem denote_authzQuery_legacy (db : PermsData) (repo user : Int) :
    denote db repo (authzQuery false false false user)
      = some (((SqlValue.false.or (db.unrestrictedLegacy repo)).or
          (db.externalServiceUnrestricted repo)).or (db.restrictedLegacy repo user)) := rfl

/-- The truth value of the condition built under legacy permissions with user
mapping. -/
theorem denote_authzQuery_legacy_userMapping (db : PermsData) (repo user : Int) :
    denote db repo (authzQuery false false true user)
      = some ((SqlValue.false.or (db.unrestrictedLegacy repo)).or
          (db.restrictedLegacy repo user)) := rfl

/-- C14, as stated, fails for `usePermissionsUserMapping = true`: repository 1
is public and no permission is held in either representation, so the data
agree; the condition built under unified permissions keeps the repository for
user 7 (by the external-service clause) and the one built under legacy
permissions does not. -/
theorem representations_differ_under_userMapping :
    publicRepoNoPermissions.agree 1 7
      ∧ keeps publicRepoNoPermissions 1 (authzQuery true false true 7) = true
      ∧ keeps publicRepoNoPermissions 1 (authzQuery false false true 7) = false := by
  refine ⟨⟨by decide, ?_⟩, by decide, by decide⟩
  constructor
  · intro h
    revert h
    decide
  · rintro ⟨ids, h, _⟩
    simp [publicRepoNoPermissions] at h

/-- C14, amended: for permission data that agree across the two representations,
the condition built under unified permissions keeps a repository exactly when
the one built under legacy permissions keeps it, or user mapping is on and the
external-service clause holds (the legacy condition leaves that clause out under
user mapping). So the two conditions have the same outcome when
`usePermissionsUserMapping` is false, and when the repository is private and on
no unrestricted external service. -/
theorem representations_agree (db : PermsData) (repo user : Int)
    (usePermissionsUserMapping : Bool) (h : db.agree repo user) :
    keeps db repo (authzQuery true false usePermissionsUserMapping user)
        = (keeps db repo (authzQuery false false usePermissionsUserMapping user)
            || (usePermissionsUserMapping
                && decide (db.externalServiceUnrestricted repo = SqlValue.true)))
      ∧ (usePermissionsUserMapping = false →
          keeps db repo (authzQuery true false usePermissionsUserMapping user)
            = keeps db repo (authzQuery false false usePermissionsUserMapping user))
      ∧ (db.externalServiceUnrestricted repo ≠ SqlValue.true →
          keeps db repo (authzQuery true false usePermissionsUserMapping user)
            = keeps db repo (authzQuery false false usePermissionsUserMapping user)) := by
  obtain ⟨h1, h2⟩ := h
  have key : keeps db repo (authzQuery true false usePermissionsUserMapping user)
        = (keeps db repo (authzQuery false false usePermissionsUserMapping user)
            || (usePermissionsUserMapping
                && decide (db.externalServiceUnrestricted repo = SqlValue.true))) := by
    have hr : db.restrictedUnified repo user = SqlValue.true
        ↔ db.restrictedLegacy repo user = SqlValue.true := by
      rw [h2]
      unfold PermsData.restrictedLegacy
      cases hu : db.userPermissions user with
      | none => simp
      | some ids => by_cases hm : repo ∈ ids <;> simp [SqlValue.ofBool, hm]
    have hru : db.restrictedUnified repo user = SqlValue.true
        ∨ db.restrictedUnified repo user = SqlValue.false := by
      unfold PermsData.restrictedUnified SqlValue.ofBool
      split <;> simp
    unfold keeps
    rw [denote_authzQuery_unified, h1]
    cases usePermissionsUserMapping
    · rw [denote_authzQuery_legacy]
      generalize db.unrestrictedLegacy repo = ul
      generalize db.externalServiceUnrestricted repo = ext
      generalize db.restrictedUnified repo user = ru at hr hru
      generalize db.restrictedLegacy repo user = rl at hr
      rcases hru with rfl | rfl <;> cases ul <;> cases ext <;> cases rl <;>
        simp_all [SqlValue.or]
    · rw [denote_authzQuery_legacy_userMapping]
      generalize db.unrestrictedLegacy repo = ul
      generalize db.externalServiceUnrestricted repo = ext
      generalize db.restrictedUnified repo user = ru at hr hru
      generalize db.restrictedLegacy repo user = rl at hr
      rcases hru with rfl | rfl <;> cases ul <;> cases ext <;> cases rl <;>
        simp_all [SqlValue.or]
  refine ⟨key, ?_, ?_⟩
  · intro hum
    rw [key, hum]
    simp
  · intro hext
    rw [key]
    simp [hext]

/-- Witness of C14, amended: repository 1 is private, user 7 holds a permission
for it in both representations; under user mapping both conditions keep it. -/
theorem representations_agree_witness :
    privateRepoWithPermissions.agree 1 7
      ∧ privateRepoWithPermissions.externalServiceUnrestricted 1 ≠ SqlValue.true
      ∧ keeps privateRepoWithPermissions 1 (authzQuery true false true 7)
          = keeps privateRepoWithPermissions 1 (authzQuery false false true 7) :=
  have h : privateRepoWithPermissions.agree 1 7 :=
    ⟨by decide, fun _ => ⟨[1, 2], by decide, by decide⟩, fun _ => by decide⟩
  ⟨h, by decide, (representations_agree privateRepoWithPermissions 1 7 true h).2.2 (by decide)⟩

end Database

namespace Database

open Sqlf

/-! ## What the query and the decision depend on -/

set_option maxRecDepth 100000

/-- C15, as stated, fails: the parameters returned for user 7 under user mapping
carry the snapshot `UnifiedPermsEnabled = false`, yet `ToAuthzQuery` on these
same parameters yields two different predicates for the two values of the
unified-permissions setting at the time of the call, and with the setting on
the predicate reads the unified table `user_repo_permissions`. -/
theorem toAuthzQuery_follows_ambient_setting :
    ∃ p, (GetAuthzQueryParameters envUserMapping).params = some p
      ∧ p.UnifiedPermsEnabled = false
      ∧ p.ToAuthzQuery true ≠ p.ToAuthzQuery false
      ∧ (p.ToAuthzQuery true).tables
          = ["user_repo_permissions", "external_services", "external_service_repos",
              "user_repo_permissions"]
      ∧ (p.ToAuthzQuery false).tables = ["repo_permissions", "user_permissions"] := by
  refine ⟨{ UsePermissionsUserMapping := true, AuthenticatedUserID := 7 }, by decide, rfl,
    ?_, rfl, rfl⟩
  intro h
  have ht := congrArg Query.tables h
  revert ht
  decide

/-- C15, amended: the predicate returned by `ToAuthzQuery` is a function of the
fields `BypassAuthz`, `UsePermissionsUserMapping` and `AuthenticatedUserID` of
the parameters and of the unified-permissions setting read by `authzQuery` when
the predicate is compiled; the snapshot `UnifiedPermsEnabled` stored in the
parameters plays no part. With `BypassAuthz = true` the predicate is the same
under both values of the setting; with `BypassAuthz = false` its leaves follow
the setting at compile time: no legacy table when it is on, no unified table
when it is off. -/
theorem toAuthzQuery_depends_on (confUnifiedPermissions : Bool)
    (p q : AuthzQueryParameters) :
    (p.BypassAuthz = q.BypassAuthz →
        p.UsePermissionsUserMapping = q.UsePermissionsUserMapping →
        p.AuthenticatedUserID = q.AuthenticatedUserID →
        p.ToAuthzQuery confUnifiedPermissions = q.ToAuthzQuery confUnifiedPermissions)
      ∧ (p.BypassAuthz = true → p.ToAuthzQuery true = p.ToAuthzQuery false)
      ∧ (p.BypassAuthz = false →
          (∀ t ∈ (p.ToAuthzQuery true).tables, t ∉ legacyTables)
            ∧ ∀ t ∈ (p.ToAuthzQuery false).tables, t ∉ unifiedTables) := by
  refine ⟨?_, ?_, ?_⟩
  · intro h1 h2 h3
    simp [AuthzQueryParameters.ToAuthzQuery, h1, h2, h3]
  · intro h
    simp [AuthzQueryParameters.ToAuthzQuery, h, authzQuery]
  · intro h
    rcases p with ⟨byp, rs, um, uid, enf, uni⟩
    simp only at h
    subst h
    cases um
    · have h1 : (AuthzQueryParameters.ToAuthzQuery true ⟨false, rs, false, uid, enf, uni⟩).tables
          = ["user_repo_permissions", "external_services", "external_service_repos",
              "user_repo_permissions"] := rfl
      have h2 : (AuthzQueryParameters.ToAuthzQuery false ⟨false, rs, false, uid, enf, uni⟩).tables
          = ["repo_permissions", "external_services", "external_service_repos",
              "user_permissions"] := rfl
      rw [h1, h2]
      exact ⟨by decide, by decide⟩
    · have h1 : (AuthzQueryParameters.ToAuthzQuery true ⟨false, rs, true, uid, enf, uni⟩).tables
          = ["user_repo_permissions", "external_services", "external_service_repos",
              "user_repo_permissions"] := rfl
      have h2 : (AuthzQueryParameters.ToAuthzQuery false ⟨false, rs, true, uid, enf, uni⟩).tables
          = ["repo_permissions", "user_permissions"] := rfl
      rw [h1, h2]
      exact ⟨by decide, by decide⟩

/-- Witness of C15, amended: two parameter records that differ only in the
snapshot `UnifiedPermsEnabled` give the same predicate. -/
theorem toAuthzQuery_depends_on_witness :
    AuthzQueryParameters.ToAuthzQuery true
        { AuthenticatedUserID := 7, UnifiedPermsEnabled := true }
      = AuthzQueryParameters.ToAuthzQuery true
        { AuthenticatedUserID := 7, UnifiedPermsEnabled := false } :=
  (toAuthzQuery_depends_on true { AuthenticatedUserID := 7, UnifiedPermsEnabled := true }
    { AuthenticatedUserID := 7, UnifiedPermsEnabled := false }).1 rfl rfl rfl

/-- C16, as stated, fails: for an internal actor, with allow by default, no
provider and no user mapping, both the `IsInternal` and the `NoAuthzProvider`
reasons are recorded. -/
theorem internal_actor_records_noAuthzProvider :
    envInternalDefaultAllow.actor.isInternal = true
      ∧ GetAuthzQueryParameters envInternalDefaultAllow =
          { params := some
              { BypassAuthz := true
                BypassAuthzReasons :=
                  { SiteAdmin := false, IsInternal := true, NoAuthzProvider := true } }
            err := none, lookupCalls := 0 } := by
  decide

/-- C16, amended: the default-allow rule is tested on its own, after and apart
from the internal-actor rule. In any parameters returned, the `IsInternal`
reason is recorded exactly when the actor is internal and the `NoAuthzProvider`
reason exactly when authz allows by default, no provider is configured and user
mapping is off, for internal and other actors alike. -/
theorem reasons_recorded_independently (env : Env) (p : AuthzQueryParameters)
    (hp : (GetAuthzQueryParameters env).params = some p) :
    p.BypassAuthzReasons.IsInternal = env.actor.isInternal
      ∧ p.BypassAuthzReasons.NoAuthzProvider = decide env.allowsByDefault := by
  rw [GetAuthzQueryParameters_eq] at hp
  rcases env with ⟨abd, provs, um, enf, uni, ⟨int, auth⟩, lk⟩
  simp only [Env.allowsByDefault]
  rcases lk with e | ⟨uid, adm⟩ <;> rcases provs with _ | ⟨pr, ps⟩ <;> cases abd <;>
    cases um <;> cases uni <;> cases int <;> cases auth <;> simp at hp <;> subst hp <;> simp

/-- Witness of C16, amended: the internal actor of `envInternalDefaultAllow`. -/
theorem reasons_recorded_independently_witness :
    (GetAuthzQueryParameters envInternalDefaultAllow).params
        = some { BypassAuthz := true,
                 BypassAuthzReasons := { IsInternal := true, NoAuthzProvider := true } }
      ∧ true = envInternalDefaultAllow.actor.isInternal
      ∧ true = decide envInternalDefaultAllow.allowsByDefault :=
  ⟨by decide,
    reasons_recorded_independently envInternalDefaultAllow
      { BypassAuthz := true,
        BypassAuthzReasons := { IsInternal := true, NoAuthzProvider := true } }
      (by decide)⟩

end Database

namespace Database

open Sqlf

/-- C17, as stated, fails: an actor can be internal and carry a user id. For such
an actor, outside the conflict, the user lookup is called, and the parameters
returned differ between a lookup that fails and one that finds user 3. -/
theorem internal_actor_result_depends_on_lookup :
    ¬ envInternalSignedIn.isConflict
      ∧ envInternalSignedIn.actor.isInternal = true
      ∧ (GetAuthzQueryParameters envInternalSignedIn).lookupCalls = 1
      ∧ GetAuthzQueryParameters
            (envInternalSignedIn.withLookup (Except.error (GoError.other "user not found")))
          ≠ GetAuthzQueryParameters (envInternalSignedIn.withLookup (Except.ok ⟨3, false⟩))
      ∧ (GetAuthzQueryParameters
            (envInternalSignedIn.withLookup
              (Except.error (GoError.other "user not found")))).params
          = some { BypassAuthz := true, BypassAuthzReasons := { IsInternal := true },
                   AuthenticatedUserID := 0 }
      ∧ (GetAuthzQueryParameters
            (envInternalSignedIn.withLookup (Except.ok ⟨3, false⟩))).params
          = some { BypassAuthz := true, BypassAuthzReasons := { IsInternal := true },
                   AuthenticatedUserID := 3 } := by
  decide

/-- C17, amended: outside the conflict, for an internal actor that is not
authenticated the user lookup is not called and the result is the same for any
two behaviours of the lookup. For an internal actor that is authenticated the
lookup is called once; whatever it does, the error returned is nil and the
parameters have `BypassAuthz = true` and the `IsInternal` reason, and two
behaviours of the lookup can change the parameters in `AuthenticatedUserID` and
the `SiteAdmin` reason only. -/
theorem internal_actor_and_lookup (env : Env) (lookup₁ lookup₂ : Except GoError User)
    (hconf : ¬ env.isConflict) (hint : env.actor.isInternal = true) :
    (env.actor.isAuthenticated = false →
        (GetAuthzQueryParameters (env.withLookup lookup₁)).lookupCalls = 0
          ∧ GetAuthzQueryParameters (env.withLookup lookup₁)
              = GetAuthzQueryParameters (env.withLookup lookup₂))
      ∧ (env.actor.isAuthenticated = true →
          (GetAuthzQueryParameters (env.withLookup lookup₁)).lookupCalls = 1)
      ∧ (GetAuthzQueryParameters (env.withLookup lookup₁)).err = none
      ∧ ∃ p₁ p₂,
          (GetAuthzQueryParameters (env.withLookup lookup₁)).params = some p₁
            ∧ (GetAuthzQueryParameters (env.withLookup lookup₂)).params = some p₂
            ∧ p₁.BypassAuthz = true ∧ p₁.BypassAuthzReasons.IsInternal = true
            ∧ { p₁ with
                  AuthenticatedUserID := 0
                  BypassAuthzReasons := { p₁.BypassAuthzReasons with SiteAdmin := false } }
                = { p₂ with
                    AuthenticatedUserID := 0
                    BypassAuthzReasons := { p₂.BypassAuthzReasons with SiteAdmin := false } } := by
  rw [GetAuthzQueryParameters_eq, GetAuthzQueryParameters_eq]
  rcases env with ⟨abd, provs, um, enf, uni, ⟨int, auth⟩, lk⟩
  simp only [Env.isConflict] at hconf
  simp only at hint
  subst hint
  have hc : (um && (decide (provs.length > 0) && !uni)) = false := by
    cases um <;> cases uni <;> simp_all
  simp only [Env.withLookup, hc]
  rcases lookup₁ with e₁ | u₁ <;> rcases lookup₂ with e₂ | u₂ <;> cases auth <;> simp

/-- Witness of C17, amended: the internal actor of `envInternal`, which is not
signed in, with a failing lookup and with one that finds a site admin. -/
theorem internal_actor_and_lookup_witness :
    ¬ envInternal.isConflict ∧ envInternal.actor.isInternal = true
      ∧ envInternal.actor.isAuthenticated = false
      ∧ (GetAuthzQueryParameters
            (envInternal.withLookup (Except.error (GoError.other "user not found")))).lookupCalls
          = 0
      ∧ GetAuthzQueryParameters
            (envInternal.withLookup (Except.error (GoError.other "user not found")))
          = GetAuthzQueryParameters (envInternal.withLookup (Except.ok ⟨1, true⟩)) :=
  ⟨by decide, rfl, rfl,
    (internal_actor_and_lookup envInternal (Except.error (GoError.other "user not found"))
      (Except.ok ⟨1, true⟩) (by decide) rfl).1 rfl⟩

end Database

namespace Gitserver

/-! ## Splitting and trimming -/

/-- Splitting never yields an empty list of pieces. -/
theorem bytesSplit_ne_nil (s : List Nat) (sep : Nat) : bytesSplit s sep ≠ [] := by
  cases s with
  | nil => simp [bytesSplit]
  | cons b bs =>
    unfold bytesSplit
    split
    · simp
    · split <;> simp

/-- A piece free of the separator, followed by the separator, is split off. -/
theorem bytesSplit_append_sep (s rest : List Nat) (sep : Nat) (hs : sep ∉ s) :
    bytesSplit (s ++ sep :: rest) sep = s :: bytesSplit rest sep := by
  induction s with
  | nil => simp [bytesSplit]
  | cons b bs ih =>
    have hb : b ≠ sep := fun h => hs (by simp [h])
    have hbs : sep ∉ bs := fun h => hs (by simp [h])
    simp [bytesSplit, hb, ih hbs]

/-- Bytes free of the separator make one piece. -/
theorem bytesSplit_of_not_mem (s : List Nat) (sep : Nat) (hs : sep ∉ s) :
    bytesSplit s sep = [s] := by
  induction s with
  | nil => simp [bytesSplit]
  | cons b bs ih =>
    have hb : b ≠ sep := fun h => hs (by simp [h])
    have hbs : sep ∉ bs := fun h => hs (by simp [h])
    simp [bytesSplit, hb, ih hbs]

/-- Trimming `NUL` bytes removes one final `NUL` that follows another byte. -/
theorem bytesTrimRight_append_NUL (s : List Nat) (x : Nat) (hx : x ≠ NUL) :
    bytesTrimRight (s ++ [x, NUL]) [NUL] = s ++ [x] := by
  simp [bytesTrimRight, List.dropWhile, hx]

/-- The slices of a sequence of records: status, path, status, path, ... -/
theorem bytesSplit_records (init : List DiffRecord) (last : DiffRecord)
    (hinit : ∀ r ∈ init, NUL ∉ r.status ∧ NUL ∉ r.path)
    (hlast : NUL ∉ last.status ∧ NUL ∉ last.path) :
    bytesSplit (encodeRecords init ++ (last.status ++ NUL :: last.path)) NUL
      = (init.flatMap fun r => [r.status, r.path]) ++ [last.status, last.path] := by
  induction init with
  | nil =>
    simp [encodeRecords, bytesSplit_append_sep _ _ _ hlast.1,
      bytesSplit_of_not_mem _ _ hlast.2]
  | cons r rs ih =>
    have hr := hinit r (by simp)
    have hrs : ∀ r ∈ rs, NUL ∉ r.status ∧ NUL ∉ r.path := fun x hx => hinit x (by simp [hx])
    have h := ih hrs
    simp only [encodeRecords] at h
    simp only [encodeRecords, List.flatMap_cons, DiffRecord.encode, List.append_assoc,
      List.singleton_append, List.cons_append, List.nil_append]
    rw [bytesSplit_append_sep _ _ _ hr.1, bytesSplit_append_sep _ _ _ hr.2, h]

/-- The loop over the slices of well-formed records gathers the paths by status
byte, in order. -/
theorem parseLoop_records (rs : List DiffRecord) (changes : Changes)
    (hrs : ∀ r ∈ rs, r.status ≠ []) :
    parseLoop (rs.flatMap fun r => [r.status, r.path]) changes
      = ParseResult.returned
          { Added := changes.Added ++ pathsWithStatus 65 rs
            Modified := changes.Modified ++ pathsWithStatus 77 rs
            Deleted := changes.Deleted ++ pathsWithStatus 68 rs } none := by
  induction rs generalizing changes with
  | nil => simp [parseLoop, pathsWithStatus]
  | cons r rs ih =>
    have hr := hrs r (by simp)
    have hrest : ∀ r ∈ rs, r.status ≠ [] := fun x hx => hrs x (by simp [hx])
    rcases r with ⟨status, path⟩
    cases status with
    | nil => exact absurd rfl hr
    | cons c cs =>
      have e : (({ status := c :: cs, path := path } : DiffRecord) :: rs).flatMap
            (fun r => [r.status, r.path])
          = (c :: cs) :: path :: rs.flatMap (fun r => [r.status, r.path]) := rfl
      rw [e]
      simp only [parseLoop]
      rw [ih _ hrest]
      by_cases hA : c = 65
      · subst hA
        simp [recordChange, pathsWithStatus, List.filter_cons]
      · by_cases hM : c = 77
        · subst hM
          simp [recordChange, pathsWithStatus, List.filter_cons]
        · by_cases hD : c = 68
          · subst hD
            simp [recordChange, pathsWithStatus, List.filter_cons]
          · have hA' : ¬ 65 = c := fun h => hA h.symm
            have hM' : ¬ 77 = c := fun h => hM h.symm
            have hD' : ¬ 68 = c := fun h => hD h.symm
            simp [recordChange, pathsWithStatus, List.filter_cons, hA, hM, hD, hA', hM', hD']

end Gitserver

namespace Gitserver

/-- After trimming, the bytes of a non-empty sequence of well-formed records
are split into their statuses and paths. -/
theorem slices_of_records (rs : List DiffRecord)
    (hwf : ∀ r ∈ rs, NUL ∉ r.status ∧ r.path ≠ [] ∧ NUL ∉ r.path) (hne : rs ≠ []) :
    bytesSplit (bytesTrimRight (encodeRecords rs) [NUL]) NUL
      = rs.flatMap fun r => [r.status, r.path] := by
  obtain ⟨init, last, rfl⟩ : ∃ init last, rs = init ++ [last] :=
    ⟨rs.dropLast, rs.getLast hne, (List.dropLast_append_getLast hne).symm⟩
  have hlast := hwf last (by simp)
  have hinit : ∀ r ∈ init, NUL ∉ r.status ∧ NUL ∉ r.path :=
    fun r hr => ⟨(hwf r (by simp [hr])).1, (hwf r (by simp [hr])).2.2⟩
  obtain ⟨pre, x, hpath⟩ : ∃ pre x, last.path = pre ++ [x] :=
    ⟨last.path.dropLast, last.path.getLast hlast.2.1,
      (List.dropLast_append_getLast hlast.2.1).symm⟩
  have hx : x ≠ NUL := by
    intro h
    apply hlast.2.2
    rw [hpath, h]
    simp
  have henc : encodeRecords (init ++ [last])
      = (encodeRecords init ++ (last.status ++ NUL :: pre)) ++ [x, NUL] := by
    simp [encodeRecords, DiffRecord.encode, hpath]
  rw [henc, bytesTrimRight_append_NUL _ _ hx]
  have hre : (encodeRecords init ++ (last.status ++ NUL :: pre)) ++ [x]
      = encodeRecords init ++ (last.status ++ NUL :: last.path) := by
    simp [hpath]
  rw [hre, bytesSplit_records init last hinit ⟨hlast.1, hlast.2.2⟩]
  simp

/-! ## The parser on well-formed and on other input -/

/-- C18: for a concatenation of one or more records `<status> NUL <path> NUL`
with non-empty status and non-empty path, `parseGitDiffOutput` returns no error,
and `Added`, `Modified` and `Deleted` are the paths of the records whose status
begins with `A`, `M` and `D`, each in input order; a record with another first
status byte is in none of the lists. The status and the path of a record are the
fields that the NUL bytes delimit, so neither holds a NUL. -/
theorem parseGitDiffOutput_records (rs : List DiffRecord) (hne : rs ≠ [])
    (hwf : ∀ r ∈ rs, r.status ≠ [] ∧ NUL ∉ r.status ∧ r.path ≠ [] ∧ NUL ∉ r.path) :
    parseGitDiffOutput (encodeRecords rs)
      = ParseResult.returned
          { Added := pathsWithStatus 65 rs
            Modified := pathsWithStatus 77 rs
            Deleted := pathsWithStatus 68 rs } none := by
  have hs := slices_of_records rs (fun r hr => (hwf r hr).2) hne
  have hlen : (rs.flatMap fun r => [r.status, r.path]).length % 2 = 0 := by
    clear hs hwf hne
    induction rs with
    | nil => simp
    | cons r rs ih =>
      simp only [List.flatMap_cons, List.length_append, List.length_cons, List.length_nil]
      omega
  unfold parseGitDiffOutput
  simp only [hs, hlen, ne_eq, not_true_eq_false, if_false]
  rw [parseLoop_records rs {} (fun r hr => (hwf r hr).1)]
  simp

/-- Witness of C18: the records `A f`, `M g`, `R100 h` and `D i`. -/
theorem parseGitDiffOutput_records_witness :
    parseGitDiffOutput
        [65, 0, 102, 0, 77, 0, 103, 0, 82, 49, 48, 48, 0, 104, 0, 68, 0, 105, 0]
      = ParseResult.returned { Added := [[102]], Modified := [[103]], Deleted := [[105]] }
          none :=
  parseGitDiffOutput_records
    [⟨[65], [102]⟩, ⟨[77], [103]⟩, ⟨[82, 49, 48, 48], [104]⟩, ⟨[68], [105]⟩]
    (by decide) (by decide)

/-- C19: what the code does on the empty output. `bytes.Split` of the empty
slice is one empty piece, an odd number, so `parseGitDiffOutput` returns the
error "uneven pairs" (with an empty `Changes`) instead of no error. -/
theorem parseGitDiffOutput_empty :
    bytesSplit (bytesTrimRight [] [NUL]) NUL = [[]]
      ∧ parseGitDiffOutput [] = ParseResult.returned {} (some "uneven pairs") := by
  decide

/-- C20: what the code does on an output with a leading NUL, here NUL followed
by `f`. The slices are an empty status and the path `f`, an even number, and
the read `slices[0][0]` is out of range. The same happens after two consecutive
NULs in `A NUL f NUL NUL g`. -/
theorem parseGitDiffOutput_panics :
    bytesSplit (bytesTrimRight [0, 102] [NUL]) NUL = [[], [102]]
      ∧ parseGitDiffOutput [0, 102] = ParseResult.indexOutOfRange IndexRead.statusByte
      ∧ parseGitDiffOutput [65, 0, 102, 0, 0, 103]
          = ParseResult.indexOutOfRange IndexRead.statusByte := by
  decide

/-- The loop on an even number of slices never reads `slices[i+1]` out of
range. -/
theorem parseLoop_path_in_range (slices : List (List Nat)) (changes : Changes)
    (heven : slices.length % 2 = 0) :
    parseLoop slices changes ≠ ParseResult.indexOutOfRange IndexRead.path := by
  induction slices, changes using parseLoop.induct with
  | case1 changes => simp [parseLoop]
  | case2 rest changes => simp [parseLoop]
  | case3 c cs changes h => simp at heven
  | case4 c cs changes h => simp at heven
  | case5 c cs path rest changes ih =>
    simp only [parseLoop]
    apply ih
    simp only [List.length_cons] at heven
    omega

/-- The loop itself returns no error. -/
theorem parseLoop_no_error (slices : List (List Nat)) (changes changes' : Changes)
    (e : String) : parseLoop slices changes ≠ ParseResult.returned changes' (some e) := by
  induction slices, changes using parseLoop.induct with
  | case1 changes => simp [parseLoop]
  | case2 rest changes => simp [parseLoop]
  | case3 c cs changes h => simp [parseLoop, h]
  | case4 c cs changes h => simp [parseLoop, h]
  | case5 c cs path rest changes ih =>
    simp only [parseLoop]
    exact ih

/-- For every output `parseGitDiffOutput` returns a `Changes` value without
error, returns the error "uneven pairs", or panics on the read `slices[i][0]`;
the read `slices[i+1]` is never out of range. -/
theorem parseGitDiffOutput_outcomes (output : List Nat) :
    (∃ changes, parseGitDiffOutput output = ParseResult.returned changes none)
      ∨ parseGitDiffOutput output = ParseResult.returned {} (some "uneven pairs")
      ∨ parseGitDiffOutput output = ParseResult.indexOutOfRange IndexRead.statusByte := by
  unfold parseGitDiffOutput
  simp only
  split
  · exact Or.inr (Or.inl rfl)
  · rename_i h
    have heven : (bytesSplit (bytesTrimRight output [NUL]) NUL).length % 2 = 0 := by
      simpa using h
    have hp := parseLoop_path_in_range (bytesSplit (bytesTrimRight output [NUL]) NUL) {} heven
    have he := parseLoop_no_error (bytesSplit (bytesTrimRight output [NUL]) NUL) {}
    generalize parseLoop (bytesSplit (bytesTrimRight output [NUL]) NUL) {} = r at hp he ⊢
    rcases r with ⟨changes, _ | e⟩ | ⟨_ | _⟩
    · exact Or.inl ⟨changes, rfl⟩
    · exact absurd rfl (he changes e)
    · exact Or.inr (Or.inr rfl)
    · exact absurd rfl hp

end Gitserver
